import Mathlib

/-!
Verification of the tic-track offline-first synchronization subsystem.

The development shallowly embeds the sync-related modules of the
tic-track application:

* `src/types/events.ts` — the `Event` record and its status field;
* `src/services/localStorage.ts` — the SQLite-backed event store
  (`getAllEvents`, `getPendingEvents`, `getEventsBySyncStatus`,
  `updateEventSyncStatus`);
* `src/services/cosmosClient.ts` — the Cosmos DB REST client
  (`generateAuthorizationSignature`, `uploadEvent`,
  `isCosmosClientInitialized`);
* `src/services/eventSync.ts` — the sync orchestrator
  (`syncPendingEvents`, `getMergedEvents`, `retryFailedSyncs`).

Modelling conventions: SQLite rows are a list of events plus a flag
saying whether the storage layer is currently failing (every storage
call then throws); JavaScript exceptions are the `JSResult` sum;
`ORDER BY` and `Array.prototype.sort` are modelled with the stable
`List.insertionSort` (JS sort is stable per ES2019, and SQLite's order
is unspecified on ties, so a stable sort is a valid refinement);
SQLite TEXT comparison (`BINARY` collation) is code-point-wise
lexicographic comparison `strLe`; `new Date(s).getTime()` in the merge
comparator is an abstract `time : String → Int`; the HMAC-SHA256
primitive of the crypto-js library is an abstract function parameter,
while base64 coding, UTF-8, percent-encoding and JSON serialization
are implemented concretely.
-/

namespace TicTrack

/-! ### Byte-wise string order (SQLite BINARY collation on TEXT) -/

def strLeAux : List Char → List Char → Bool
  | [], _ => true
  | _ :: _, [] => false
  | a :: as, b :: bs =>
    if a.toNat < b.toNat then true
    else if b.toNat < a.toNat then false
    else strLeAux as bs

def strLe (a b : String) : Bool := strLeAux a.data b.data

/-! ### Data model (`src/types/events.ts`)

`event_type` and `sync_status` are string-typed unions in TypeScript
and TEXT columns in SQLite, so they are embedded as strings. -/

structure Event where
  id : String
  event_type : String
  description : Option String
  triggers : Option String
  notes : Option String
  started_at : String
  ended_at : Option String
  duration_seconds : Option Int
  created_at : String
  updated_at : String
  synced_at : Option String
  sync_status : String
deriving DecidableEq, Repr

/-- Outcome of a JavaScript call: a returned value or a thrown error. -/
inductive JSResult (ε α : Type) where
  | ok (a : α)
  | thrown (e : ε)
deriving DecidableEq, Repr

/-! ### Event store (`src/services/localStorage.ts`)

The SQLite database is its list of rows plus a flag recording whether
the storage layer currently fails; when it does, every query or update
throws, which is the failure the source's `catch` blocks handle. -/

structure SQLiteDB where
  rows : List Event
  failing : Bool
deriving DecidableEq, Repr

/-- Sort key of `ORDER BY started_at DESC`. -/
def startedAtDesc (a b : Event) : Prop := strLe b.started_at a.started_at = true

instance : DecidableRel startedAtDesc := fun a b => by
  unfold startedAtDesc; infer_instance

/-- Sort key of `ORDER BY created_at ASC`. -/
def createdAtAsc (a b : Event) : Prop := strLe a.created_at b.created_at = true

instance : DecidableRel createdAtAsc := fun a b => by
  unfold createdAtAsc; infer_instance

/-- The query `SELECT * FROM events ORDER BY started_at DESC`. -/
def selectAllEvents (db : SQLiteDB) : JSResult String (List Event) :=
  if db.failing then .thrown "storage unavailable"
  else .ok (List.insertionSort startedAtDesc db.rows)

/-- `getAllEvents`: runs the query and returns `[]` on a caught storage error. -/
def getAllEvents (db : SQLiteDB) : List Event :=
  match selectAllEvents db with
  | .ok result => result
  | .thrown _ => []

/-- The query `SELECT * FROM events WHERE sync_status = ? ORDER BY created_at ASC`. -/
def selectEventsBySyncStatus (db : SQLiteDB) (status : String) :
    JSResult String (List Event) :=
  if db.failing then .thrown "storage unavailable"
  else .ok (List.insertionSort createdAtAsc
      (db.rows.filter (fun e => e.sync_status == status)))

/-- `getEventsBySyncStatus`: runs the query and returns `[]` on a caught storage error. -/
def getEventsBySyncStatus (db : SQLiteDB) (status : String) : List Event :=
  match selectEventsBySyncStatus db status with
  | .ok result => result
  | .thrown _ => []

/-- `getPendingEvents`: same query with the literal status `'pending'`. -/
def getPendingEvents (db : SQLiteDB) : List Event :=
  match selectEventsBySyncStatus db "pending" with
  | .ok result => result
  | .thrown _ => []

/-- JavaScript `x || null` on an optional string: `undefined`, `null`
and the empty string all collapse to `null`. -/
def jsOrNull : Option String → Option String
  | none => none
  | some s => if s = "" then none else some s

/-- Row effect of
`UPDATE events SET sync_status = ?, synced_at = ?, updated_at = ? WHERE id = ?`,
with `now` the sampled `new Date().toISOString()`. -/
def applyStatusUpdate (rows : List Event) (eventId status : String)
    (syncedAt : Option String) (now : String) : List Event :=
  rows.map fun e =>
    if e.id = eventId then
      { e with sync_status := status, synced_at := jsOrNull syncedAt, updated_at := now }
    else e

/-- The same update lifted to the database value. -/
def dbUpdate (db : SQLiteDB) (eventId status : String) (syncedAt : Option String)
    (now : String) : SQLiteDB :=
  { db with rows := applyStatusUpdate db.rows eventId status syncedAt now }

/-- `updateEventSyncStatus`: runs the UPDATE; unlike the readers it
rethrows the storage error to its caller. -/
def updateEventSyncStatus (db : SQLiteDB) (eventId status : String)
    (syncedAt : Option String) (now : String) : JSResult String SQLiteDB :=
  if db.failing then .thrown "storage unavailable"
  else .ok (dbUpdate db eventId status syncedAt now)

/-! ### Remote client (`src/services/cosmosClient.ts`) -/

structure AzureConfig where
  endpoint : String
  key : String
  database : String
  container : String
deriving DecidableEq, Repr

/-- Module-level state of the client: `azureConfig` and `isInitialized`. -/
structure CosmosState where
  azureConfig : Option AzureConfig
  isInitialized : Bool
deriving DecidableEq, Repr

def isCosmosClientInitialized (st : CosmosState) : Bool :=
  st.isInitialized && st.azureConfig.isSome

def isValidEventType (value : String) : Bool :=
  value == "tic" || value == "emotional" || value == "combined"

/-- JavaScript `String.prototype.toLowerCase` (ASCII range, which is
all the verbs, resource types and RFC-1123 dates fed to it). -/
def jsToLower (s : String) : String := ⟨s.data.map Char.toLower⟩

/-- UTF-8 bytes of one code point. -/
def utf8BytesOfChar (n : Nat) : List Nat :=
  if n < 0x80 then [n]
  else if n < 0x800 then [0xC0 + n / 0x40, 0x80 + n % 0x40]
  else if n < 0x10000 then
    [0xE0 + n / 0x1000, 0x80 + n / 0x40 % 0x40, 0x80 + n % 0x40]
  else
    [0xF0 + n / 0x40000, 0x80 + n / 0x1000 % 0x40, 0x80 + n / 0x40 % 0x40, 0x80 + n % 0x40]

/-- UTF-8 bytes of a string (how crypto-js interprets a string message). -/
def utf8Bytes (s : String) : List Nat :=
  s.data.foldr (fun c acc => utf8BytesOfChar c.toNat ++ acc) []

def base64Alphabet : List Char :=
  "ABCDEFGHIJKLMNOPQRSTUVWXYZabcdefghijklmnopqrstuvwxyz0123456789+/".data

def base64Char (n : Nat) : Char := base64Alphabet.getD n '?'

def base64Index (c : Char) : Nat := base64Alphabet.findIdx (fun x => x == c)

def base64EncodeAux : List Nat → List Char
  | [] => []
  | [b1] => [base64Char (b1 / 4), base64Char (b1 % 4 * 16), '=', '=']
  | [b1, b2] =>
    [base64Char (b1 / 4), base64Char (b1 % 4 * 16 + b2 / 16), base64Char (b2 % 16 * 4), '=']
  | b1 :: b2 :: b3 :: rest =>
    base64Char (b1 / 4) :: base64Char (b1 % 4 * 16 + b2 / 16) ::
      base64Char (b2 % 16 * 4 + b3 / 64) :: base64Char (b3 % 64) :: base64EncodeAux rest

/-- `CryptoJS.enc.Base64.stringify` on a byte sequence. -/
def base64Encode (bytes : List Nat) : String := ⟨base64EncodeAux bytes⟩

def base64DecodeAux : List Nat → List Nat
  | a :: b :: c :: d :: rest =>
    (a * 4 + b / 16) :: (b % 16 * 16 + c / 4) :: (c % 4 * 64 + d) :: base64DecodeAux rest
  | [a, b, c] => [a * 4 + b / 16, b % 16 * 16 + c / 4]
  | [a, b] => [a * 4 + b / 16]
  | [_] => []
  | [] => []

/-- `CryptoJS.enc.Base64.parse` on a base64 string. -/
def base64Decode (s : String) : List Nat :=
  base64DecodeAux ((s.data.filter (fun c => !(c == '='))).map base64Index)

def isUnreservedURIChar (c : Char) : Bool :=
  (c.isAlpha || c.isDigit) ||
    (['-', '_', '.', '!', '~', '*', '\'', '(', ')'] : List Char).contains c

def hexUpper (n : Nat) : Char := "0123456789ABCDEF".data.getD n '0'

def percentEncodeByte (b : Nat) : List Char := ['%', hexUpper (b / 16), hexUpper (b % 16)]

/-- JavaScript `encodeURIComponent`. -/
def encodeURIComponent (s : String) : String :=
  ⟨s.data.foldr
    (fun c acc =>
      if isUnreservedURIChar c then c :: acc
      else (utf8BytesOfChar c.toNat).foldr (fun b acc2 => percentEncodeByte b ++ acc2) acc)
    []⟩

/-- `generateAuthorizationSignature`, translated from
`src/services/cosmosClient.ts`: canonical string
`{verb}\n{resourceType}\n{resourceId}\n{date}\n\n` with `verb`,
`resourceType` and `date` lower-cased, HMAC-SHA256 over the
base64-decoded master key, digest base64-encoded and wrapped as
`type=master&ver=1.0&sig=...` before URI-encoding. The HMAC primitive
itself is the library function, passed in abstractly. -/
def generateAuthorizationSignature (hmac : List Nat → List Nat → List Nat)
    (verb resourceType resourceId date masterKey : String) : String :=
  let text := jsToLower verb ++ "\n" ++ jsToLower resourceType ++ "\n" ++
    resourceId ++ "\n" ++ jsToLower date ++ "\n\n"
  let key := base64Decode masterKey
  let signature := base64Encode (hmac key (utf8Bytes text))
  encodeURIComponent ("type=master&ver=1.0&sig=" ++ signature)

/-- Claim-side signature definition, written after the spec's words:
"each request is signed by constructing a canonical string of the form
`{verb}\n{resourceType}\n{resourceId}\n{date}\n\n` (all lower-cased
except the literal resourceId), computing an HMAC using a symmetric
key material decoded from a base64 credential, base64-encoding the
digest, and embedding it in an authorization header value alongside a
fixed scheme/version tag". -/
def signatureClaim (hmac : List Nat → List Nat → List Nat)
    (verb resourceType resourceId date credential : String) : String :=
  let canonicalString := jsToLower verb ++ "\n" ++ jsToLower resourceType ++ "\n" ++
    resourceId ++ "\n" ++ jsToLower date ++ "\n\n"
  let keyMaterial := base64Decode credential
  let digest := hmac keyMaterial (utf8Bytes canonicalString)
  encodeURIComponent ("type=master&ver=1.0&sig=" ++ base64Encode digest)

def hexLower (n : Nat) : Char := "0123456789abcdef".data.getD n '0'

/-- Escaping of one character inside a JSON string literal, as
`JSON.stringify` performs it. -/
def jsonEscapeChar (c : Char) : List Char :=
  if c = '"' then ['\\', '"']
  else if c = '\\' then ['\\', '\\']
  else if c = '\x08' then ['\\', 'b']
  else if c = '\x0c' then ['\\', 'f']
  else if c = '\n' then ['\\', 'n']
  else if c = '\r' then ['\\', 'r']
  else if c = '\t' then ['\\', 't']
  else if c.toNat < 32 then
    ['\\', 'u', '0', '0', hexLower (c.toNat / 16), hexLower (c.toNat % 16)]
  else [c]

def jsonString (s : String) : String :=
  "\"" ++ ⟨s.data.foldr (fun c acc => jsonEscapeChar c ++ acc) []⟩ ++ "\""

def jsonOfOptString : Option String → String
  | none => "null"
  | some s => jsonString s

def jsonOfOptInt : Option Int → String
  | none => "null"
  | some n => toString n

/-- `JSON.stringify` of the uploaded document (the spread
`{...event, event_type: event.event_type}` keeps the original key
order, so this is the event object itself, serialized field by
field). -/
def jsonOfEvent (e : Event) : String :=
  "\x7b" ++
    "\"id\":" ++ jsonString e.id ++
    ",\"event_type\":" ++ jsonString e.event_type ++
    ",\"description\":" ++ jsonOfOptString e.description ++
    ",\"triggers\":" ++ jsonOfOptString e.triggers ++
    ",\"notes\":" ++ jsonOfOptString e.notes ++
    ",\"started_at\":" ++ jsonString e.started_at ++
    ",\"ended_at\":" ++ jsonOfOptString e.ended_at ++
    ",\"duration_seconds\":" ++ jsonOfOptInt e.duration_seconds ++
    ",\"created_at\":" ++ jsonString e.created_at ++
    ",\"updated_at\":" ++ jsonString e.updated_at ++
    ",\"synced_at\":" ++ jsonOfOptString e.synced_at ++
    ",\"sync_status\":" ++ jsonString e.sync_status ++
  "\x7d"

/-- The HTTP request `uploadEvent` hands to `fetch`. -/
structure FetchRequest where
  url : String
  method : String
  authorization : String
  contentType : String
  xMsDate : String
  xMsVersion : String
  partitionKey : String
  body : String
deriving DecidableEq, Repr

/-- The `fetch` call of `uploadEvent`, with `date` the sampled
`new Date().toUTCString()` used for both the signature and the
`x-ms-date` header. -/
def buildUploadRequest (hmac : List Nat → List Nat → List Nat) (cfg : AzureConfig)
    (event : Event) (date : String) : FetchRequest :=
  let url := cfg.endpoint ++ "/dbs/" ++ cfg.database ++ "/colls/" ++ cfg.container ++ "/docs"
  let resourceId := "dbs/" ++ cfg.database ++ "/colls/" ++ cfg.container
  let authToken := generateAuthorizationSignature hmac "POST" "docs" resourceId date cfg.key
  { url := url
    method := "POST"
    authorization := authToken
    contentType := "application/json"
    xMsDate := date
    xMsVersion := "2018-12-31"
    partitionKey := "[" ++ jsonString event.event_type ++ "]"
    body := jsonOfEvent event }

structure FetchResponse where
  status : Nat
deriving DecidableEq, Repr

/-- `Response.ok`: status in the inclusive range 200-299. -/
def FetchResponse.isOk (r : FetchResponse) : Bool :=
  200 ≤ r.status && r.status ≤ 299

inductive UploadError where
  | authError
  | notFoundError
  | rateLimitError
deriving DecidableEq, Repr

/-- Response handling inside `uploadEvent`'s try block: on a
non-success response, statuses 401/403, 404 and 429 throw their
dedicated errors and any other non-success returns `false`. -/
def uploadEventResponse (resp : FetchResponse) : JSResult UploadError Bool :=
  if resp.isOk then .ok true
  else if resp.status = 401 ∨ resp.status = 403 then .thrown .authError
  else if resp.status = 404 then .thrown .notFoundError
  else if resp.status = 429 then .thrown .rateLimitError
  else .ok false

/-- `uploadEvent`, translated from `src/services/cosmosClient.ts`.
The codomain is the call's observable outcome: a returned boolean or
an exception escaping to the caller.  The function's own trailing
`catch` converts every thrown error — including the 401/403/404/429
errors thrown inside the try block — into a `false` return, so no
`.thrown` value is ever produced. -/
def uploadEvent (hmac : List Nat → List Nat → List Nat) (st : CosmosState) (event : Event)
    (date : String) (transport : FetchRequest → JSResult String FetchResponse) :
    JSResult UploadError Bool :=
  match st.azureConfig with
  | none => .ok false
  | some cfg =>
    if st.isInitialized = false then .ok false
    else if isValidEventType event.event_type = false then .ok false
    else
      match transport (buildUploadRequest hmac cfg event date) with
      | .thrown _ => .ok false
      | .ok resp =>
        match uploadEventResponse resp with
        | .ok returned => .ok returned
        | .thrown _ => .ok false

/-! ### Sync orchestrator (`src/services/eventSync.ts`) -/

structure SyncSystem where
  isSyncing : Bool
  lastSyncTimestamp : Option String
  db : SQLiteDB
  cosmos : CosmosState
deriving DecidableEq, Repr

structure SyncResult where
  success : Bool
  syncedCount : Nat
  errorCount : Nat
  message : String
deriving DecidableEq, Repr

/-- The per-event loop of `syncPendingEvents`.  `upload` is the
outcome of `await uploadEvent(event)` for each event (a boolean or a
thrown transport error) and `clock` enumerates successive
`getCurrentISOString()` / `toISOString()` samples.  The loop is only
reached when the pending query returned rows, which in this model
implies the store is available, so the status updates are applied
with the pure row update. -/
def syncLoop (upload : Event → JSResult String Bool) (clock : Nat → String) :
    List Event → SQLiteDB → Nat → Nat → Nat → SQLiteDB × Nat × Nat × Nat
  | [], db, t, s, e => (db, t, s, e)
  | ev :: rest, db, t, s, e =>
    match upload ev with
    | .ok true =>
      syncLoop upload clock rest
        (dbUpdate db ev.id "synced" (some (clock t)) (clock (t + 1))) (t + 2) (s + 1) e
    | .ok false =>
      syncLoop upload clock rest (dbUpdate db ev.id "error" none (clock t)) (t + 1) s (e + 1)
    | .thrown _ =>
      syncLoop upload clock rest (dbUpdate db ev.id "error" none (clock t)) (t + 1) s (e + 1)

/-- `syncPendingEvents`, translated from `src/services/eventSync.ts`. -/
def syncPendingEvents (upload : Event → JSResult String Bool) (clock : Nat → String)
    (sys : SyncSystem) : SyncResult × SyncSystem :=
  if sys.isSyncing then
    ({ success := false, syncedCount := 0, errorCount := 0,
       message := "Sync already in progress" }, sys)
  else if !(isCosmosClientInitialized sys.cosmos) then
    ({ success := false, syncedCount := 0, errorCount := 0,
       message := "Cloud storage not configured" }, sys)
  else
    let pendingEvents := getEventsBySyncStatus sys.db "pending"
    if pendingEvents.isEmpty then
      ({ success := true, syncedCount := 0, errorCount := 0,
         message := "No events to sync" },
       { sys with lastSyncTimestamp := some (clock 0), isSyncing := false })
    else
      let r := syncLoop upload clock pendingEvents sys.db 0 0 0
      ({ success := r.2.2.2 == 0, syncedCount := r.2.2.1, errorCount := r.2.2.2,
         message :=
           if r.2.2.2 > 0 then
             "Synced " ++ toString r.2.2.1 ++ " events, " ++ toString r.2.2.2 ++ " failed"
           else "Synced " ++ toString r.2.2.1 ++ " events successfully" },
       { sys with db := r.1, lastSyncTimestamp := some (clock r.2.1), isSyncing := false })

/-- One `eventMap.set(k, v)` of the JavaScript `Map`: replacing an
existing key keeps its position, a new key is appended. -/
def jsMapSet (m : List (String × Event)) (k : String) (v : Event) :
    List (String × Event) :=
  if m.any (fun p => p.1 = k) then
    m.map (fun p => if p.1 = k then (k, v) else p)
  else m ++ [(k, v)]

/-- A `forEach` loop inserting every event under its id. -/
def insertAll (m : List (String × Event)) (events : List Event) :
    List (String × Event) :=
  events.foldl (fun acc e => jsMapSet acc e.id e) m

/-- Lookup in the association-list model of the JavaScript `Map`
(proof-side helper, not part of the source). -/
def mapLookup : List (String × Event) → String → Option Event
  | [], _ => none
  | p :: rest, k => if p.1 = k then some p.2 else mapLookup rest k

/-- Last event of a list carrying a given id (proof-side helper
describing which entry survives the `forEach` inserts). -/
def lastWithId (k : String) : List Event → Option Event
  | [] => none
  | e :: rest =>
    match lastWithId k rest with
    | some r => some r
    | none => if e.id = k then some e else none

/-- Merge-view comparator key: the relation induced by
`new Date(b.started_at).getTime() - new Date(a.started_at).getTime()`,
with the date parser abstracted as `time`. -/
def timeDesc (time : String → Int) (a b : Event) : Prop :=
  time b.started_at ≤ time a.started_at

instance (time : String → Int) : DecidableRel (timeDesc time) := fun a b => by
  unfold timeDesc; infer_instance

/-- `getMergedEvents`, translated from `src/services/eventSync.ts`.
`cloudFetch` is the outcome of `fetchAllEvents()`; a thrown fetch is
caught and leaves the cloud list empty.  The function's outermost
catch (fall back to `getAllEvents`) is unreachable because every call
it wraps catches its own failures. -/
def getMergedEvents (time : String → Int) (sys : SyncSystem)
    (cloudFetch : JSResult String (List Event)) : List Event :=
  let localEvents := getAllEvents sys.db
  let cloudEvents :=
    if isCosmosClientInitialized sys.cosmos then
      match cloudFetch with
      | .ok events => events
      | .thrown _ => []
    else []
  let eventMap := insertAll (insertAll [] cloudEvents) localEvents
  List.insertionSort (timeDesc time) (eventMap.map Prod.snd)

structure RetryResult where
  success : Bool
  message : String
deriving DecidableEq, Repr

/-- The `for` loop of `retryFailedSyncs` flipping each error record
back to pending, threading the clock tick.  Reached only when the
error query returned rows, hence with an available store. -/
def markPending (clock : Nat → String) :
    List Event → SQLiteDB → Nat → SQLiteDB × Nat
  | [], db, t => (db, t)
  | ev :: rest, db, t =>
    markPending clock rest (dbUpdate db ev.id "pending" none (clock t)) (t + 1)

/-- `retryFailedSyncs`, translated from `src/services/eventSync.ts`. -/
def retryFailedSyncs (upload : Event → JSResult String Bool) (clock : Nat → String)
    (sys : SyncSystem) : RetryResult × SyncSystem :=
  let errorEvents := getEventsBySyncStatus sys.db "error"
  if errorEvents.isEmpty then
    ({ success := true, message := "No failed events to retry" }, sys)
  else
    let m := markPending clock errorEvents sys.db 0
    let r := syncPendingEvents upload (fun k => clock (m.2 + k)) { sys with db := m.1 }
    ({ success := r.1.success, message := r.1.message }, r.2)

/-- Claim-side definition, written after the spec's words:
`retryFailedSyncs` "Transitions every `error` record back to
`pending`, then invokes `syncPendingEvents()`", returning that sync
pass's success and message. -/
def retryFailedSyncsClaim (upload : Event → JSResult String Bool) (clock : Nat → String)
    (sys : SyncSystem) : RetryResult × SyncSystem :=
  let errorRecords := getEventsBySyncStatus sys.db "error"
  let transitioned := markPending clock errorRecords sys.db 0
  let pass := syncPendingEvents upload (fun k => clock (transitioned.2 + k))
    { sys with db := transitioned.1 }
  ({ success := pass.1.success, message := pass.1.message }, pass.2)

/-! ### Concrete sample values used by witnesses and counterexamples -/

/-- Event builder for concrete scenarios; remaining fields as
`createEvent` initializes them. -/
def mkEvent (i eventType started created status : String) : Event :=
  { id := i, event_type := eventType, description := none, triggers := none,
    notes := none, started_at := started, ended_at := none, duration_seconds := none,
    created_at := created, updated_at := created, synced_at := none,
    sync_status := status }

def cfg0 : AzureConfig :=
  { endpoint := "https://acct.documents.azure.com", key := "a2V5",
    database := "tictrack", container := "events" }

def cosmosOn : CosmosState := { azureConfig := some cfg0, isInitialized := true }

def cosmosOff : CosmosState := { azureConfig := none, isInitialized := false }

def hmac0 : List Nat → List Nat → List Nat := fun _ _ => []

def clock0 : Nat → String := fun _ => "2024-06-01T00:00:00.000Z"

def upload0 : Event → JSResult String Bool := fun _ => .ok true

def date0 : String := "Sat, 01 Jun 2024 00:00:00 GMT"

def transport200 : FetchRequest → JSResult String FetchResponse := fun _ => .ok ⟨200⟩

def transport401 : FetchRequest → JSResult String FetchResponse := fun _ => .ok ⟨401⟩

def evTic : Event :=
  mkEvent "e1" "tic" "2024-05-31T10:00:00.000Z" "2024-05-31T10:05:00.000Z" "pending"

def sysBusy : SyncSystem :=
  { isSyncing := true, lastSyncTimestamp := none,
    db := { rows := [evTic], failing := false }, cosmos := cosmosOn }

def sysOff : SyncSystem :=
  { isSyncing := false, lastSyncTimestamp := none,
    db := { rows := [evTic], failing := false }, cosmos := cosmosOff }

def sysNoErr : SyncSystem :=
  { isSyncing := false, lastSyncTimestamp := none,
    db := { rows := [], failing := false }, cosmos := cosmosOff }

def db9 : SQLiteDB :=
  { rows := [mkEvent "e1" "tic" "2024-05-31T10:00:00.000Z" "2024-05-31T10:05:00.000Z"
      "pending"], failing := false }

def dbFail : SQLiteDB :=
  { rows := [mkEvent "e1" "tic" "2024-05-31T10:00:00.000Z" "2024-05-31T10:05:00.000Z"
      "pending"], failing := true }

def evP1 : Event := mkEvent "p1" "tic" "2024-03-09T09:00:00.000Z" "2024-01-01T00:00:00.000Z" "pending"

def evP2 : Event := mkEvent "p2" "emotional" "2024-03-01T09:00:00.000Z" "2024-01-02T00:00:00.000Z" "pending"

def evP3 : Event := mkEvent "p3" "tic" "2024-03-05T09:00:00.000Z" "2024-01-03T00:00:00.000Z" "pending"

def db5 : SQLiteDB :=
  { rows := [evP2, mkEvent "s1" "tic" "2024-02-01T00:00:00.000Z" "2024-01-01T12:00:00.000Z"
      "synced", evP3, evP1], failing := false }

def evA : Event := mkEvent "a" "tic" "2024-03-02T09:00:00.000Z" "2024-02-01T00:00:00.000Z" "pending"

def evB : Event := mkEvent "b" "emotional" "2024-03-03T09:00:00.000Z" "2024-02-02T00:00:00.000Z" "pending"

def evC : Event := mkEvent "c" "combined" "2024-03-01T09:00:00.000Z" "2024-02-03T00:00:00.000Z" "pending"

def sysBatch : SyncSystem :=
  { isSyncing := false, lastSyncTimestamp := none,
    db := { rows := [evB, evA, evC], failing := false }, cosmos := cosmosOn }

/-- Upload outcome per event in the batch witness: `a` succeeds, `b`
throws a transport error, `c` fails with a returned `false`. -/
def uploadBatch : Event → JSResult String Bool := fun ev =>
  if ev.id = "a" then .ok true
  else if ev.id = "b" then .thrown "network request failed"
  else .ok false

/-- Date-value function used by the merge witness (any total function
works; the comparator only consumes its output). -/
def timeW : String → Int := fun s => (s.length : Int)

def elW : Event :=
  { id := "m1", event_type := "tic", description := some "local copy",
    triggers := none, notes := some "kept locally", started_at := "2024-04-02T10:00:00.000Z",
    ended_at := none, duration_seconds := none, created_at := "2024-04-02T10:00:00.000Z",
    updated_at := "2024-04-02T10:00:00.000Z", synced_at := none, sync_status := "pending" }

def ecW : Event :=
  { id := "m1", event_type := "tic", description := some "stale cloud copy",
    triggers := none, notes := none, started_at := "2024-04-01T08:00:00.000Z",
    ended_at := none, duration_seconds := none, created_at := "2024-04-01T08:00:00.000Z",
    updated_at := "2024-04-01T08:00:00.000Z", synced_at := some "2024-04-01T09:00:00.000Z",
    sync_status := "synced" }

def cloudW : List Event :=
  [ecW, mkEvent "m2" "emotional" "2024-04-03T09:00:00.000Z" "2024-04-03T09:00:00.000Z"
    "synced"]

def sysMerge : SyncSystem :=
  { isSyncing := false, lastSyncTimestamp := none,
    db := { rows := [elW, mkEvent "m3" "combined" "2024-03-30T07:00:00.000Z"
      "2024-03-30T07:00:00.000Z" "pending"], failing := false },
    cosmos := cosmosOn }

/-! ### Shared helper lemmas -/

theorem dbUpdate_dbUpdate (db : SQLiteDB) (eventId status : String)
    (syncedAt : Option String) (now1 now2 : String) :
    dbUpdate (dbUpdate db eventId status syncedAt now1) eventId status syncedAt now2 =
      dbUpdate db eventId status syncedAt now2 := by
  simp only [dbUpdate, applyStatusUpdate, List.map_map, SQLiteDB.mk.injEq, and_true]
  refine List.map_congr_left fun e _ => ?_
  by_cases h : e.id = eventId <;> simp [h, Function.comp]

theorem dbUpdate_failing (db : SQLiteDB) (eventId status : String)
    (syncedAt : Option String) (now : String) :
    (dbUpdate db eventId status syncedAt now).failing = db.failing := rfl

theorem strLeAux_total (a b : List Char) : strLeAux a b = true ∨ strLeAux b a = true := by
  induction a generalizing b with
  | nil => left; rfl
  | cons x xs ih =>
    cases b with
    | nil => right; rfl
    | cons y ys =>
      simp only [strLeAux]
      rcases Nat.lt_trichotomy x.toNat y.toNat with h | h | h
      · left; simp [h]
      · have : ¬ x.toNat < y.toNat := by omega
        have : ¬ y.toNat < x.toNat := by omega
        rcases ih ys with h2 | h2 <;> simp_all
      · right; simp [h, Nat.lt_asymm h]

theorem strLeAux_trans : ∀ (a b c : List Char), strLeAux a b = true → strLeAux b c = true →
    strLeAux a c = true
  | [], _, _, _, _ => rfl
  | _ :: _, [], _, h1, _ => by simp [strLeAux] at h1
  | _ :: _, _ :: _, [], _, h2 => by simp [strLeAux] at h2
  | x :: xs, y :: ys, z :: zs, h1, h2 => by
    simp only [strLeAux] at h1 h2 ⊢
    split_ifs at h1 h2 ⊢ <;>
      first
        | rfl
        | omega
        | exact strLeAux_trans xs ys zs h1 h2

theorem createdAtAsc_isTotal : ∀ a b : Event, createdAtAsc a b ∨ createdAtAsc b a :=
  fun a b => strLeAux_total a.created_at.data b.created_at.data

theorem createdAtAsc_isTrans : ∀ a b c : Event,
    createdAtAsc a b → createdAtAsc b c → createdAtAsc a c :=
  fun a b c => strLeAux_trans a.created_at.data b.created_at.data c.created_at.data

/-! ### C5 — `listByStatus` ordering -/

/-- C5: for every store state with the storage available,
`getEventsBySyncStatus status` returns exactly the rows whose
`sync_status` matches (as a permutation of the filtered table) sorted
by `created_at` ascending; so for pending events created at t1 < t2 <
t3 the result is [t1, t2, t3] whatever their `started_at` values (the
witness instantiates that scenario). -/
theorem getEventsBySyncStatus_sorted (db : SQLiteDB) (status : String)
    (h : db.failing = false) :
    List.Sorted createdAtAsc (getEventsBySyncStatus db status) ∧
      List.Perm (getEventsBySyncStatus db status)
        (db.rows.filter (fun e => e.sync_status == status)) := by
  haveI : IsTotal Event createdAtAsc := ⟨createdAtAsc_isTotal⟩
  haveI : IsTrans Event createdAtAsc := ⟨createdAtAsc_isTrans⟩
  simp only [getEventsBySyncStatus, selectEventsBySyncStatus, h, Bool.false_eq_true,
    if_false]
  exact ⟨List.sorted_insertionSort _ _, List.perm_insertionSort _ _⟩

theorem getEventsBySyncStatus_sorted_witness :
    db5.failing = false ∧
      (List.Sorted createdAtAsc (getEventsBySyncStatus db5 "pending") ∧
        List.Perm (getEventsBySyncStatus db5 "pending")
          (db5.rows.filter (fun e => e.sync_status == "pending"))) ∧
      getEventsBySyncStatus db5 "pending" = [evP1, evP2, evP3] :=
  ⟨rfl, getEventsBySyncStatus_sorted db5 "pending" rfl, by decide⟩

/-! ### Lemmas about the sync loop -/

theorem applyStatusUpdate_filter_ne (rows : List Event) (k k' status : String)
    (sa : Option String) (now : String) (hne : k ≠ k') :
    (applyStatusUpdate rows k' status sa now).filter (fun x => x.id == k) =
      rows.filter (fun x => x.id == k) := by
  induction rows with
  | nil => rfl
  | cons x xs ih =>
    simp only [applyStatusUpdate, List.map_cons, List.filter_cons] at *
    by_cases hx : x.id = k'
    · simp [hx, Ne.symm hne, ih]
    · by_cases hk : x.id = k <;> simp [hx, hk, hne, ih]

theorem applyStatusUpdate_filter_eq (rows : List Event) (k status : String)
    (sa : Option String) (now : String) :
    (applyStatusUpdate rows k status sa now).filter (fun x => x.id == k) =
      (rows.filter (fun x => x.id == k)).map
        (fun r => { r with
          sync_status := status
          synced_at := jsOrNull sa
          updated_at := now }) := by
  induction rows with
  | nil => rfl
  | cons x xs ih =>
    simp only [applyStatusUpdate, List.map_cons, List.filter_cons] at *
    by_cases hx : x.id = k <;> simp [hx, ih]

theorem filter_id_eq_nil (rows : List Event) (k : String)
    (h : k ∉ rows.map Event.id) :
    rows.filter (fun x => x.id == k) = [] := by
  rw [List.filter_eq_nil_iff]
  intro a ha
  simp only [beq_iff_eq]
  intro hak
  exact h (List.mem_map.mpr ⟨a, ha, hak⟩)

theorem filter_id_singleton (rows : List Event) (ev : Event)
    (hn : (rows.map Event.id).Nodup) (hm : ev ∈ rows) :
    rows.filter (fun x => x.id == ev.id) = [ev] := by
  induction rows with
  | nil => cases hm
  | cons x xs ih =>
    simp only [List.map_cons, List.nodup_cons] at hn
    rcases List.mem_cons.mp hm with rfl | hmx
    · simp only [List.filter_cons, beq_self_eq_true, if_true]
      rw [filter_id_eq_nil xs ev.id hn.1]
    · have hx : ¬ x.id = ev.id := by
        intro hEq
        exact hn.1 (hEq ▸ List.mem_map.mpr ⟨ev, hmx, rfl⟩)
      simp [List.filter_cons, hx, ih hn.2 hmx]

theorem length_filter_partition {α : Type} (p : α → Bool) (L : List α) :
    (L.filter p).length + (L.filter (fun a => !p a)).length = L.length := by
  induction L with
  | nil => rfl
  | cons x xs ih => by_cases h : p x <;> simp [List.filter_cons, h] <;> omega

theorem syncLoop_counts (u : Event → JSResult String Bool) (c : Nat → String) :
    ∀ (L : List Event) (db : SQLiteDB) (t s e : Nat),
    (syncLoop u c L db t s e).2.2.1 =
      s + (L.filter (fun ev => decide (u ev = .ok true))).length ∧
    (syncLoop u c L db t s e).2.2.2 =
      e + (L.filter (fun ev => !decide (u ev = .ok true))).length := by
  intro L
  induction L with
  | nil => intro db t s e; simp [syncLoop]
  | cons ev rest ih =>
    intro db t s e
    cases hu : u ev with
    | ok b =>
      cases b
      · have h := ih (dbUpdate db ev.id "error" none (c t)) (t + 1) s (e + 1)
        simp only [syncLoop, hu, List.filter_cons]
        constructor <;> simp <;> omega
      · have h := ih (dbUpdate db ev.id "synced" (some (c t)) (c (t + 1))) (t + 2) (s + 1) e
        simp only [syncLoop, hu, List.filter_cons]
        constructor <;> simp <;> omega
    | thrown err =>
      have h := ih (dbUpdate db ev.id "error" none (c t)) (t + 1) s (e + 1)
      simp only [syncLoop, hu, List.filter_cons]
      constructor <;> simp <;> omega

theorem syncLoop_untouched (u : Event → JSResult String Bool) (c : Nat → String) :
    ∀ (L : List Event) (db : SQLiteDB) (t s e : Nat) (k : String),
    (∀ ev ∈ L, ev.id ≠ k) →
    (syncLoop u c L db t s e).1.rows.filter (fun x => x.id == k) =
      db.rows.filter (fun x => x.id == k) := by
  intro L
  induction L with
  | nil => intro db t s e k _; rfl
  | cons ev rest ih =>
    intro db t s e k hk
    have hne : k ≠ ev.id := (hk ev (List.mem_cons_self ev rest)).symm
    have hrest : ∀ x ∈ rest, x.id ≠ k := fun x hx => hk x (List.mem_cons_of_mem ev hx)
    cases hu : u ev with
    | ok b =>
      cases b
      · simp only [syncLoop, hu]
        rw [ih _ _ _ _ _ hrest]
        exact applyStatusUpdate_filter_ne db.rows k ev.id "error" none (c t) hne
      · simp only [syncLoop, hu]
        rw [ih _ _ _ _ _ hrest]
        exact applyStatusUpdate_filter_ne db.rows k ev.id "synced" (some (c t)) (c (t + 1)) hne
    | thrown err =>
      simp only [syncLoop, hu]
      rw [ih _ _ _ _ _ hrest]
      exact applyStatusUpdate_filter_ne db.rows k ev.id "error" none (c t) hne

theorem syncLoop_per_event (u : Event → JSResult String Bool) (c : Nat → String) :
    ∀ (L : List Event) (db : SQLiteDB) (t s e : Nat),
    (L.map Event.id).Nodup →
    ∀ ev ∈ L, ∀ r0, db.rows.filter (fun x => x.id == ev.id) = [r0] →
    ∃ t0, (syncLoop u c L db t s e).1.rows.filter (fun x => x.id == ev.id) =
      [if u ev = .ok true then
        { r0 with
          sync_status := "synced"
          synced_at := jsOrNull (some (c t0))
          updated_at := c (t0 + 1) }
       else { r0 with sync_status := "error", synced_at := none, updated_at := c t0 }] := by
  intro L
  induction L with
  | nil => intro db t s e _ ev hev; cases hev
  | cons ev' rest ih =>
    intro db t s e hn ev hev r0 hr0
    simp only [List.map_cons, List.nodup_cons] at hn
    rcases List.mem_cons.mp hev with rfl | hmem
    · -- `ev` is processed first; later iterations touch other ids only
      have hrest : ∀ x ∈ rest, x.id ≠ ev.id := by
        intro x hx hEq
        exact hn.1 (hEq ▸ List.mem_map.mpr ⟨x, hx, rfl⟩)
      refine ⟨t, ?_⟩
      cases hu : u ev with
      | ok b =>
        cases b
        · simp only [syncLoop, hu]
          rw [syncLoop_untouched u c rest _ _ _ _ _ hrest]
          show (applyStatusUpdate db.rows ev.id "error" none (c t)).filter _ = _
          rw [applyStatusUpdate_filter_eq, hr0]
          simp [hu, jsOrNull]
        · simp only [syncLoop, hu]
          rw [syncLoop_untouched u c rest _ _ _ _ _ hrest]
          show (applyStatusUpdate db.rows ev.id "synced" (some (c t)) (c (t + 1))).filter _ = _
          rw [applyStatusUpdate_filter_eq, hr0]
          simp [hu]
      | thrown err =>
        simp only [syncLoop, hu]
        rw [syncLoop_untouched u c rest _ _ _ _ _ hrest]
        show (applyStatusUpdate db.rows ev.id "error" none (c t)).filter _ = _
        rw [applyStatusUpdate_filter_eq, hr0]
        simp [hu, jsOrNull]
    · -- `ev` sits later in the batch; the head update keeps its row intact
      have hne : ev.id ≠ ev'.id := by
        intro hEq
        exact hn.1 (hEq ▸ List.mem_map.mpr ⟨ev, hmem, rfl⟩)
      cases hu' : u ev' with
      | ok b =>
        cases b
        · simp only [syncLoop, hu']
          exact ih _ _ _ _ hn.2 ev hmem r0
            (by
              show (applyStatusUpdate db.rows ev'.id "error" none (c t)).filter _ = _
              rw [applyStatusUpdate_filter_ne _ _ _ _ _ _ hne]
              exact hr0)
        · simp only [syncLoop, hu']
          exact ih _ _ _ _ hn.2 ev hmem r0
            (by
              show (applyStatusUpdate db.rows ev'.id "synced" (some (c t))
                (c (t + 1))).filter _ = _
              rw [applyStatusUpdate_filter_ne _ _ _ _ _ _ hne]
              exact hr0)
      | thrown err =>
        simp only [syncLoop, hu']
        exact ih _ _ _ _ hn.2 ev hmem r0
          (by
            show (applyStatusUpdate db.rows ev'.id "error" none (c t)).filter _ = _
            rw [applyStatusUpdate_filter_ne _ _ _ _ _ _ hne]
            exact hr0)

/-! ### C4 — sequential batch processing -/

/-- C4: a sync pass attempts every pending event exactly once,
strictly sequentially: an event whose upload returns `true` ends with
status `synced` and a set `synced_at` and is counted in `syncedCount`;
an event whose upload returns `false` or throws ends with status
`error` (and no `synced_at`) and is counted in `errorCount`; one
event's failure never aborts the batch — the counts add up to the
whole pending list and every pending event's final record is
determined by its own outcome alone. -/
theorem syncPendingEvents_batch (upload : Event → JSResult String Bool)
    (clock : Nat → String) (sys : SyncSystem)
    (h1 : sys.isSyncing = false)
    (h2 : isCosmosClientInitialized sys.cosmos = true)
    (h3 : sys.db.failing = false)
    (h4 : (sys.db.rows.map Event.id).Nodup)
    (hclock : ∀ n, clock n ≠ "") :
    (syncPendingEvents upload clock sys).1.syncedCount =
      ((getEventsBySyncStatus sys.db "pending").filter
        (fun ev => decide (upload ev = .ok true))).length ∧
    (syncPendingEvents upload clock sys).1.errorCount =
      ((getEventsBySyncStatus sys.db "pending").filter
        (fun ev => !decide (upload ev = .ok true))).length ∧
    (syncPendingEvents upload clock sys).1.syncedCount +
        (syncPendingEvents upload clock sys).1.errorCount =
      (getEventsBySyncStatus sys.db "pending").length ∧
    ∀ ev ∈ getEventsBySyncStatus sys.db "pending", ∃ r,
      (syncPendingEvents upload clock sys).2.db.rows.filter (fun x => x.id == ev.id) =
        [r] ∧
      r.sync_status = (if upload ev = .ok true then "synced" else "error") ∧
      (upload ev = .ok true → r.synced_at ≠ none) ∧
      (¬ upload ev = .ok true → r.synced_at = none) := by
  have hP : getEventsBySyncStatus sys.db "pending" =
      List.insertionSort createdAtAsc
        (sys.db.rows.filter (fun e => e.sync_status == "pending")) := by
    simp [getEventsBySyncStatus, selectEventsBySyncStatus, h3]
  have hPperm := List.perm_insertionSort createdAtAsc
    (sys.db.rows.filter (fun e => e.sync_status == "pending"))
  have hPnodup : ((getEventsBySyncStatus sys.db "pending").map Event.id).Nodup := by
    rw [hP]
    refine ((hPperm.map Event.id).nodup_iff).mpr ?_
    exact ((List.filter_sublist _).map Event.id).nodup h4
  have hPmem : ∀ ev ∈ getEventsBySyncStatus sys.db "pending", ev ∈ sys.db.rows := by
    intro ev hev
    rw [hP] at hev
    exact (List.mem_filter.mp (hPperm.subset hev)).1
  by_cases hE : (getEventsBySyncStatus sys.db "pending").isEmpty
  · have hPnil : getEventsBySyncStatus sys.db "pending" = [] :=
      List.isEmpty_iff.mp hE
    simp [syncPendingEvents, h1, h2, hE, hPnil]
  · have hsynced : (syncPendingEvents upload clock sys).1.syncedCount =
        (syncLoop upload clock (getEventsBySyncStatus sys.db "pending")
          sys.db 0 0 0).2.2.1 := by
      simp [syncPendingEvents, h1, h2, hE]
    have herror : (syncPendingEvents upload clock sys).1.errorCount =
        (syncLoop upload clock (getEventsBySyncStatus sys.db "pending")
          sys.db 0 0 0).2.2.2 := by
      simp [syncPendingEvents, h1, h2, hE]
    have hdb : (syncPendingEvents upload clock sys).2.db =
        (syncLoop upload clock (getEventsBySyncStatus sys.db "pending")
          sys.db 0 0 0).1 := by
      simp [syncPendingEvents, h1, h2, hE]
    have hcounts := syncLoop_counts upload clock
      (getEventsBySyncStatus sys.db "pending") sys.db 0 0 0
    refine ⟨?_, ?_, ?_, ?_⟩
    · rw [hsynced, hcounts.1, Nat.zero_add]
    · rw [herror, hcounts.2, Nat.zero_add]
    · rw [hsynced, herror, hcounts.1, hcounts.2, Nat.zero_add, Nat.zero_add]
      exact length_filter_partition _ _
    · intro ev hev
      have hr0 := filter_id_singleton sys.db.rows ev h4 (hPmem ev hev)
      obtain ⟨t0, hfilter⟩ := syncLoop_per_event upload clock
        (getEventsBySyncStatus sys.db "pending") sys.db 0 0 0 hPnodup ev hev ev hr0
      refine ⟨_, by rw [hdb]; exact hfilter, ?_, ?_, ?_⟩
      · by_cases hu : upload ev = .ok true <;> simp [hu]
      · intro hu
        simp [hu, jsOrNull, hclock t0]
      · intro hu
        simp [hu]

theorem syncPendingEvents_batch_witness :
    (syncPendingEvents uploadBatch clock0 sysBatch).1.syncedCount =
      ((getEventsBySyncStatus sysBatch.db "pending").filter
        (fun ev => decide (uploadBatch ev = .ok true))).length ∧
    (syncPendingEvents uploadBatch clock0 sysBatch).1.errorCount =
      ((getEventsBySyncStatus sysBatch.db "pending").filter
        (fun ev => !decide (uploadBatch ev = .ok true))).length ∧
    (syncPendingEvents uploadBatch clock0 sysBatch).1.syncedCount +
        (syncPendingEvents uploadBatch clock0 sysBatch).1.errorCount =
      (getEventsBySyncStatus sysBatch.db "pending").length ∧
    ∀ ev ∈ getEventsBySyncStatus sysBatch.db "pending", ∃ r,
      (syncPendingEvents uploadBatch clock0 sysBatch).2.db.rows.filter
        (fun x => x.id == ev.id) = [r] ∧
      r.sync_status = (if uploadBatch ev = .ok true then "synced" else "error") ∧
      (uploadBatch ev = .ok true → r.synced_at ≠ none) ∧
      (¬ uploadBatch ev = .ok true → r.synced_at = none) :=
  syncPendingEvents_batch uploadBatch clock0 sysBatch rfl (by decide) rfl (by decide)
    (fun n => by show "2024-06-01T00:00:00.000Z" ≠ ""; decide)

/-! ### C9 — `updateSyncStatus` called twice with the same arguments -/

/-- C9, counterexample: calling `updateEventSyncStatus` twice with the
same id, status and synced_at does not leave the record in the state a
single call produces, because each call refreshes `updated_at` from
the clock: a second call observing a later timestamp changes the
record again. -/
theorem updateEventSyncStatus_twice_counterexample :
    (match updateEventSyncStatus db9 "e1" "synced" (some "2024-06-01T00:00:00.000Z")
        "2024-06-01T00:00:00.000Z" with
     | .ok db1 => updateEventSyncStatus db1 "e1" "synced" (some "2024-06-01T00:00:00.000Z")
        "2024-06-01T00:00:01.000Z"
     | .thrown err => .thrown err) ≠
      updateEventSyncStatus db9 "e1" "synced" (some "2024-06-01T00:00:00.000Z")
        "2024-06-01T00:00:00.000Z" := by
  decide

/-- C9, amended: calling `updateEventSyncStatus(id, X)` twice with the
same arguments leaves the record in the state of a single call made at
the second call's clock reading — identical in `sync_status`,
`synced_at` and all other fields, with `updated_at` that of the last
call; when both calls observe the same timestamp the final state is
exactly that of calling once. -/
theorem updateEventSyncStatus_last_write (db : SQLiteDB) (eventId status : String)
    (syncedAt : Option String) (now1 now2 : String) :
    (match updateEventSyncStatus db eventId status syncedAt now1 with
     | .ok db1 => updateEventSyncStatus db1 eventId status syncedAt now2
     | .thrown err => .thrown err) =
      updateEventSyncStatus db eventId status syncedAt now2 := by
  by_cases hf : db.failing
  · simp [updateEventSyncStatus, hf]
  · simp [updateEventSyncStatus, hf, dbUpdate_failing, dbUpdate_dbUpdate]

/-! ### C10 — local reads never raise -/

/-- C10: the local read operations catch a failing storage query and
return the empty list instead of raising; their codomain is a plain
list, so no error ever reaches the caller. -/
theorem localReads_empty_on_failure (db : SQLiteDB) (h : db.failing = true) :
    getAllEvents db = [] ∧ getPendingEvents db = [] ∧
      ∀ status, getEventsBySyncStatus db status = [] := by
  refine ⟨?_, ?_, fun status => ?_⟩ <;>
    simp [getAllEvents, getPendingEvents, getEventsBySyncStatus, selectAllEvents,
      selectEventsBySyncStatus, h]

theorem localReads_empty_on_failure_witness :
    dbFail.failing = true ∧
      (getAllEvents dbFail = [] ∧ getPendingEvents dbFail = [] ∧
        ∀ status, getEventsBySyncStatus dbFail status = []) :=
  ⟨rfl, localReads_empty_on_failure dbFail rfl⟩

/-! ### C2 — re-entrant `syncPendingEvents` guard -/

/-- C2, counterexample: the guard's message is capitalized
`"Sync already in progress"`, so the claimed message
`"sync already in progress"` is not what a re-entrant call returns. -/
theorem syncPendingEvents_busy_message_counterexample :
    (syncPendingEvents upload0 clock0 sysBusy).1.message ≠ "sync already in progress" := by
  decide

/-- C2, amended: whenever `syncPendingEvents` is invoked while
`isSyncing` is already true, it returns immediately with
`success = false`, zero counts and the message
`"Sync already in progress"` (capital S), and the whole system state —
in particular every event's `sync_status` — is left unchanged. -/
theorem syncPendingEvents_busy_guard (upload : Event → JSResult String Bool)
    (clock : Nat → String) (sys : SyncSystem) (h : sys.isSyncing = true) :
    syncPendingEvents upload clock sys =
      ({ success := false, syncedCount := 0, errorCount := 0,
         message := "Sync already in progress" }, sys) := by
  simp [syncPendingEvents, h]

theorem syncPendingEvents_busy_guard_witness :
    sysBusy.isSyncing = true ∧
      syncPendingEvents upload0 clock0 sysBusy =
        ({ success := false, syncedCount := 0, errorCount := 0,
           message := "Sync already in progress" }, sysBusy) :=
  ⟨rfl, syncPendingEvents_busy_guard upload0 clock0 sysBusy rfl⟩

/-! ### C7 — uninitialized remote client guard -/

/-- C7: with no sync in flight and the remote client uninitialized,
`syncPendingEvents` returns `success = false`, zero counts and the
message `"Cloud storage not configured"`, leaving the system state —
hence every event's `sync_status` — unchanged. -/
theorem syncPendingEvents_not_configured (upload : Event → JSResult String Bool)
    (clock : Nat → String) (sys : SyncSystem) (h1 : sys.isSyncing = false)
    (h2 : isCosmosClientInitialized sys.cosmos = false) :
    syncPendingEvents upload clock sys =
      ({ success := false, syncedCount := 0, errorCount := 0,
         message := "Cloud storage not configured" }, sys) := by
  simp [syncPendingEvents, h1, h2]

theorem syncPendingEvents_not_configured_witness :
    (sysOff.isSyncing = false ∧ isCosmosClientInitialized sysOff.cosmos = false) ∧
      syncPendingEvents upload0 clock0 sysOff =
        ({ success := false, syncedCount := 0, errorCount := 0,
           message := "Cloud storage not configured" }, sysOff) :=
  ⟨⟨rfl, rfl⟩, syncPendingEvents_not_configured upload0 clock0 sysOff rfl rfl⟩

/-! ### C3 — upload error mapping -/

/-- C3, counterexample: on a 401 response from an initialized client
with a valid event, `uploadEvent` returns `false` rather than raising
`AuthError` — the error thrown inside the try block is caught by the
function's own trailing catch. -/
theorem uploadEvent_401_counterexample :
    uploadEvent hmac0 cosmosOn evTic date0 transport401 = .ok false ∧
      uploadEvent hmac0 cosmosOn evTic date0 transport401 ≠
        .thrown UploadError.authError := by
  constructor <;> decide

/-- C3, amended: `uploadEvent` never raises any error to its caller —
the `AuthError`/`NotFoundError`/`RateLimitError` thrown for
401/403/404/429 inside the try block are swallowed by the function's
own catch, which returns `false`; for an initialized client and valid
event type, the call returns exactly `Response.ok` of the remote
response: `true` on 2xx acceptance and `false` on every non-success
status, 401/403/404/429 included. -/
theorem uploadEvent_never_throws (hmac : List Nat → List Nat → List Nat)
    (st : CosmosState) (event : Event) (date : String)
    (transport : FetchRequest → JSResult String FetchResponse) :
    (∀ err, uploadEvent hmac st event date transport ≠ .thrown err) ∧
    (∀ cfg resp, st.azureConfig = some cfg → st.isInitialized = true →
      isValidEventType event.event_type = true →
      transport (buildUploadRequest hmac cfg event date) = .ok resp →
      uploadEvent hmac st event date transport = .ok resp.isOk) := by
  constructor
  · intro err
    cases hcfg : st.azureConfig with
    | none => simp [uploadEvent, hcfg]
    | some cfg =>
      simp only [uploadEvent, hcfg]
      split
      · simp
      · split
        · simp
        · cases htr : transport (buildUploadRequest hmac cfg event date) with
          | thrown e => simp
          | ok resp =>
            cases hr : uploadEventResponse resp with
            | ok b => simp [hr]
            | thrown e2 => simp [hr]
  · intro cfg resp hcfg hinit hvalid htr
    simp only [uploadEvent, hcfg, hinit, hvalid, htr]
    simp only [Bool.true_eq_false, if_false]
    unfold uploadEventResponse
    by_cases hok : resp.isOk
    · simp [hok]
    · simp only [hok, if_false, Bool.false_eq_true]
      split_ifs <;> simp_all

theorem uploadEvent_never_throws_witness :
    (uploadEvent hmac0 cosmosOn evTic date0 transport200 ≠
        .thrown UploadError.rateLimitError) ∧
      uploadEvent hmac0 cosmosOn evTic date0 transport200 =
        .ok (FetchResponse.mk 200).isOk :=
  ⟨(uploadEvent_never_throws hmac0 cosmosOn evTic date0 transport200).1 _,
    (uploadEvent_never_throws hmac0 cosmosOn evTic date0 transport200).2 cfg0 ⟨200⟩
      rfl rfl (by decide) rfl⟩

/-! ### C6 — request signature -/

/-- C6: the request signature computed by the code coincides with the
spec's description (canonical string with `verb`, `resourceType` and
`date` lower-cased and `resourceId` literal, HMAC over the
base64-decoded credential, digest re-encoded in base64 inside the
fixed `type=master&ver=1.0` tag), and in the upload request the date
value signed is exactly the date value sent in the `x-ms-date`
header. -/
theorem signature_spec_and_date_coupling (hmac : List Nat → List Nat → List Nat)
    (verb resourceType resourceId date masterKey : String) (cfg : AzureConfig)
    (event : Event) (d : String) :
    generateAuthorizationSignature hmac verb resourceType resourceId date masterKey =
      signatureClaim hmac verb resourceType resourceId date masterKey ∧
    (buildUploadRequest hmac cfg event d).authorization =
      generateAuthorizationSignature hmac "POST" "docs"
        ("dbs/" ++ cfg.database ++ "/colls/" ++ cfg.container)
        ((buildUploadRequest hmac cfg event d).xMsDate) cfg.key :=
  ⟨rfl, rfl⟩

/-! ### C8 — retryFailedSyncs -/

/-- C8, counterexample: with no `error` records, `retryFailedSyncs`
returns `success = true`, `"No failed events to retry"` without
invoking `syncPendingEvents` — not the sync pass's result the claim
demands (here that pass would report `"Cloud storage not
configured"` with `success = false`). -/
theorem retryFailedSyncs_empty_counterexample :
    retryFailedSyncs upload0 clock0 sysNoErr ≠
      retryFailedSyncsClaim upload0 clock0 sysNoErr := by
  decide

/-- C8, amended: when at least one record has `sync_status = error`,
`retryFailedSyncs` transitions every such record back to `pending` and
then invokes `syncPendingEvents()`, returning that sync pass's success
and message; when there are none it instead returns `success = true`
with message `"No failed events to retry"` without running a sync
pass, leaving the state unchanged. -/
theorem retryFailedSyncs_characterization (upload : Event → JSResult String Bool)
    (clock : Nat → String) (sys : SyncSystem) :
    retryFailedSyncs upload clock sys =
      if (getEventsBySyncStatus sys.db "error").isEmpty then
        ({ success := true, message := "No failed events to retry" }, sys)
      else retryFailedSyncsClaim upload clock sys := by
  by_cases h : (getEventsBySyncStatus sys.db "error").isEmpty <;>
    simp [retryFailedSyncs, retryFailedSyncsClaim, h]


/-! ### C1 — merged view: local wins, sorted by started_at descending -/

theorem mapLookup_replace_ne (m : List (String × Event)) (k : String) (v : Event)
    (k' : String) (hk : k' ≠ k) :
    mapLookup (m.map (fun p => if p.1 = k then (k, v) else p)) k' = mapLookup m k' := by
  induction m with
  | nil => rfl
  | cons p rest ih =>
    by_cases hp : p.1 = k
    · simp [mapLookup, hp, Ne.symm hk, hk, ih]
    · simp [mapLookup, hp, ih]

theorem mapLookup_replace_eq (m : List (String × Event)) (k : String) (v : Event)
    (h : m.any (fun p => p.1 = k) = true) :
    mapLookup (m.map (fun p => if p.1 = k then (k, v) else p)) k = some v := by
  induction m with
  | nil => simp at h
  | cons p rest ih =>
    by_cases hp : p.1 = k
    · simp [mapLookup, hp]
    · simp only [List.any_cons, Bool.or_eq_true, decide_eq_true_eq] at h
      rcases h with h | h
      · exact absurd h hp
      · simp [mapLookup, hp, ih h]

theorem mapLookup_append_single (m : List (String × Event)) (k : String) (v : Event)
    (k' : String) :
    mapLookup (m ++ [(k, v)]) k' =
      match mapLookup m k' with
      | some w => some w
      | none => if k' = k then some v else none := by
  induction m with
  | nil =>
    show mapLookup [(k, v)] k' = _
    by_cases h : k' = k
    · simp [mapLookup, h]
    · simp [mapLookup, h, Ne.symm h]
  | cons p rest ih =>
    by_cases hp : p.1 = k' <;> simp [mapLookup, hp, ih]

theorem mapLookup_none_of_not_any (m : List (String × Event)) (k : String)
    (h : m.any (fun p => p.1 = k) = false) :
    mapLookup m k = none := by
  induction m with
  | nil => rfl
  | cons p rest ih =>
    simp only [List.any_cons, Bool.or_eq_false_iff, decide_eq_false_iff_not] at h
    simp [mapLookup, h.1, ih h.2]

theorem mapLookup_jsMapSet (m : List (String × Event)) (k : String) (v : Event)
    (k' : String) :
    mapLookup (jsMapSet m k v) k' = if k' = k then some v else mapLookup m k' := by
  unfold jsMapSet
  by_cases hany : m.any (fun p => p.1 = k) = true
  · rw [if_pos hany]
    by_cases hk : k' = k
    · subst hk
      rw [if_pos rfl]
      exact mapLookup_replace_eq m k' v hany
    · rw [if_neg hk]
      exact mapLookup_replace_ne m k v k' hk
  · rw [if_neg hany, mapLookup_append_single]
    have hfalse : m.any (fun p => p.1 = k) = false := Bool.eq_false_iff.mpr hany
    by_cases hk : k' = k
    · subst hk
      rw [mapLookup_none_of_not_any m k' hfalse]
    · cases hm : mapLookup m k' <;> simp [hm, hk]

theorem mapLookup_insertAll (k : String) : ∀ (L : List Event) (m : List (String × Event)),
    mapLookup (insertAll m L) k =
      match lastWithId k L with
      | some r => some r
      | none => mapLookup m k := by
  intro L
  induction L with
  | nil => intro m; rfl
  | cons e rest ih =>
    intro m
    show mapLookup (insertAll (jsMapSet m e.id e) rest) k = _
    rw [ih]
    cases hl : lastWithId k rest with
    | some r => simp [lastWithId, hl]
    | none =>
      simp only [lastWithId, hl]
      rw [mapLookup_jsMapSet]
      by_cases hk : k = e.id
      · simp [hk]
      · have hk2 : ¬ e.id = k := fun hh => hk hh.symm
        simp [hk, hk2]

theorem lastWithId_none (k : String) : ∀ L : List Event, k ∉ L.map Event.id →
    lastWithId k L = none := by
  intro L
  induction L with
  | nil => intro _; rfl
  | cons e rest ih =>
    intro h
    simp only [List.map_cons, List.mem_cons, not_or] at h
    have h1 : ¬ e.id = k := fun hh => h.1 hh.symm
    simp [lastWithId, ih h.2, h1]

theorem lastWithId_of_nodup (L : List Event) (ev : Event)
    (hn : (L.map Event.id).Nodup) (hm : ev ∈ L) :
    lastWithId ev.id L = some ev := by
  induction L with
  | nil => cases hm
  | cons e rest ih =>
    simp only [List.map_cons, List.nodup_cons] at hn
    rcases List.mem_cons.mp hm with rfl | hmem
    · have hnone : lastWithId ev.id rest = none := lastWithId_none ev.id rest hn.1
      simp [lastWithId, hnone]
    · simp [lastWithId, ih hn.2 hmem]

theorem jsMapSet_wf (m : List (String × Event)) (e : Event)
    (hwf : ∀ p ∈ m, p.2.id = p.1) :
    ∀ p ∈ jsMapSet m e.id e, p.2.id = p.1 := by
  intro p hp
  unfold jsMapSet at hp
  by_cases h : m.any (fun q => q.1 = e.id) = true
  · rw [if_pos h] at hp
    rcases List.mem_map.mp hp with ⟨q, hq, rfl⟩
    by_cases hq1 : q.1 = e.id
    · simp [hq1]
    · simp only [hq1, if_false]
      exact hwf q hq
  · rw [if_neg h] at hp
    rcases List.mem_append.mp hp with h1 | h2
    · exact hwf p h1
    · obtain rfl := List.mem_singleton.mp h2
      rfl

theorem insertAll_wf : ∀ (L : List Event) (m : List (String × Event)),
    (∀ p ∈ m, p.2.id = p.1) → ∀ p ∈ insertAll m L, p.2.id = p.1 := by
  intro L
  induction L with
  | nil => intro m hm; exact hm
  | cons e rest ih =>
    intro m hm
    show ∀ p ∈ insertAll (jsMapSet m e.id e) rest, p.2.id = p.1
    exact ih (jsMapSet m e.id e) (jsMapSet_wf m e hm)

theorem jsMapSet_fst_nodup (m : List (String × Event)) (k : String) (v : Event)
    (hn : (m.map Prod.fst).Nodup) : ((jsMapSet m k v).map Prod.fst).Nodup := by
  unfold jsMapSet
  by_cases h : m.any (fun q => q.1 = k) = true
  · rw [if_pos h]
    have hsame : (m.map (fun p => if p.1 = k then (k, v) else p)).map Prod.fst =
        m.map Prod.fst := by
      rw [List.map_map]
      refine List.map_congr_left fun p _ => ?_
      by_cases hp : p.1 = k <;> simp [hp, Function.comp]
    rw [hsame]
    exact hn
  · rw [if_neg h]
    have hk : k ∉ m.map Prod.fst := by
      intro hmem
      rcases List.mem_map.mp hmem with ⟨q, hq, rfl⟩
      exact h (List.any_eq_true.mpr ⟨q, hq, by simp⟩)
    rw [List.map_append]
    refine List.Nodup.append hn (List.nodup_singleton k) ?_
    intro a ha hb
    simp only [List.map_cons, List.map_nil, List.mem_singleton] at hb
    subst hb
    exact hk ha

theorem insertAll_fst_nodup : ∀ (L : List Event) (m : List (String × Event)),
    (m.map Prod.fst).Nodup → ((insertAll m L).map Prod.fst).Nodup := by
  intro L
  induction L with
  | nil => intro m hm; exact hm
  | cons e rest ih =>
    intro m hm
    show ((insertAll (jsMapSet m e.id e) rest).map Prod.fst).Nodup
    exact ih (jsMapSet m e.id e) (jsMapSet_fst_nodup m e.id e hm)

theorem values_filter_of_lookup : ∀ (m : List (String × Event)) (k : String) (v : Event),
    (∀ p ∈ m, p.2.id = p.1) → (m.map Prod.fst).Nodup → mapLookup m k = some v →
    (m.map Prod.snd).filter (fun e => e.id == k) = [v] := by
  intro m
  induction m with
  | nil =>
    intro k v _ _ hl
    simp [mapLookup] at hl
  | cons p rest ih =>
    intro k v hwf hn hl
    simp only [List.map_cons, List.nodup_cons] at hn
    have hid : p.2.id = p.1 := hwf p (List.mem_cons_self p rest)
    by_cases hp : p.1 = k
    · rw [show mapLookup (p :: rest) k = if p.1 = k then some p.2 else mapLookup rest k
        from rfl, if_pos hp] at hl
      have hv : p.2 = v := by injection hl
      have hnil : (rest.map Prod.snd).filter (fun e => e.id == k) = [] := by
        rw [List.filter_eq_nil_iff]
        intro a ha
        rcases List.mem_map.mp ha with ⟨q, hq, rfl⟩
        simp only [beq_iff_eq]
        intro hqk
        apply hn.1
        have hq1 : q.2.id = q.1 := hwf q (List.mem_cons_of_mem p hq)
        refine List.mem_map.mpr ⟨q, hq, ?_⟩
        rw [← hq1, hqk, ← hp]
      have hvid : v.id = k := by rw [← hv, hid]; exact hp
      simp [List.filter_cons, hid, hp, hv, hnil, hvid]
    · rw [show mapLookup (p :: rest) k = if p.1 = k then some p.2 else mapLookup rest k
        from rfl, if_neg hp] at hl
      have hdrop : ¬ (p.2.id = k) := by rw [hid]; exact hp
      have hb : ¬ ((p.2.id == k) = true) := by
        simp only [beq_iff_eq]
        exact hdrop
      simp only [List.map_cons, List.filter_cons, if_neg hb]
      exact ih k v (fun q hq => hwf q (List.mem_cons_of_mem p hq)) hn.2 hl

/-- C1: when an id occurs both locally and in the cloud list with
different field values, the merged view holds exactly one entry for
that id — the local record verbatim (cloud entries are inserted first,
local entries overwrite on key collision) — and the whole view is
sorted by `started_at` descending with respect to the date-value
function used by the comparator. -/
theorem getMergedEvents_local_wins (time : String → Int) (sys : SyncSystem)
    (cloud : List Event) (i : String) (el ec : Event)
    (h3 : sys.db.failing = false)
    (h4 : (sys.db.rows.map Event.id).Nodup)
    (hcn : (cloud.map Event.id).Nodup)
    (hinit : isCosmosClientInitialized sys.cosmos = true)
    (hel : el ∈ sys.db.rows) (heli : el.id = i)
    (hec : ec ∈ cloud) (heci : ec.id = i) (hne : el ≠ ec) :
    (getMergedEvents time sys (.ok cloud)).filter (fun e => e.id == i) = [el] ∧
    List.Sorted (timeDesc time) (getMergedEvents time sys (.ok cloud)) := by
  have hdef : getMergedEvents time sys (.ok cloud) =
      List.insertionSort (timeDesc time)
        ((insertAll (insertAll [] cloud) (getAllEvents sys.db)).map Prod.snd) := by
    simp [getMergedEvents, hinit]
  have hlocal : getAllEvents sys.db = List.insertionSort startedAtDesc sys.db.rows := by
    simp [getAllEvents, selectAllEvents, h3]
  have hlperm := List.perm_insertionSort startedAtDesc sys.db.rows
  have hlnodup : ((getAllEvents sys.db).map Event.id).Nodup := by
    rw [hlocal]
    exact ((hlperm.map Event.id).nodup_iff).mpr h4
  have hlmem : el ∈ getAllEvents sys.db := by
    rw [hlocal]
    exact (hlperm.mem_iff).mpr hel
  have hwf0 : ∀ p ∈ insertAll [] cloud, p.2.id = p.1 :=
    insertAll_wf cloud [] (by intro p hp; cases hp)
  have hwf : ∀ p ∈ insertAll (insertAll [] cloud) (getAllEvents sys.db), p.2.id = p.1 :=
    insertAll_wf (getAllEvents sys.db) (insertAll [] cloud) hwf0
  have hnod0 : ((insertAll [] cloud).map Prod.fst).Nodup :=
    insertAll_fst_nodup cloud [] List.nodup_nil
  have hnod : ((insertAll (insertAll [] cloud) (getAllEvents sys.db)).map Prod.fst).Nodup :=
    insertAll_fst_nodup (getAllEvents sys.db) (insertAll [] cloud) hnod0
  have hlast : lastWithId i (getAllEvents sys.db) = some el := by
    rw [← heli]
    exact lastWithId_of_nodup (getAllEvents sys.db) el hlnodup hlmem
  have hlook : mapLookup (insertAll (insertAll [] cloud) (getAllEvents sys.db)) i =
      some el := by
    rw [mapLookup_insertAll]
    simp [hlast]
  have hvals : ((insertAll (insertAll [] cloud) (getAllEvents sys.db)).map
      Prod.snd).filter (fun e => e.id == i) = [el] :=
    values_filter_of_lookup _ i el hwf hnod hlook
  constructor
  · rw [hdef]
    have hperm := (List.perm_insertionSort (timeDesc time)
      ((insertAll (insertAll [] cloud) (getAllEvents sys.db)).map Prod.snd)).filter
      (fun e => e.id == i)
    rw [hvals] at hperm
    exact List.perm_singleton.mp hperm
  · rw [hdef]
    haveI : IsTotal Event (timeDesc time) :=
      ⟨fun a b => (le_total (time a.started_at) (time b.started_at)).symm⟩
    haveI : IsTrans Event (timeDesc time) := ⟨fun a b c h1 h2 => le_trans h2 h1⟩
    exact List.sorted_insertionSort _ _

theorem getMergedEvents_local_wins_witness :
    ((sysMerge.db.rows.map Event.id).Nodup ∧ (cloudW.map Event.id).Nodup ∧
      elW ∈ sysMerge.db.rows ∧ ecW ∈ cloudW ∧ elW ≠ ecW) ∧
    (getMergedEvents timeW sysMerge (.ok cloudW)).filter (fun e => e.id == "m1") =
      [elW] ∧
    List.Sorted (timeDesc timeW) (getMergedEvents timeW sysMerge (.ok cloudW)) :=
  ⟨by decide,
    (getMergedEvents_local_wins timeW sysMerge cloudW "m1" elW ecW rfl (by decide)
      (by decide) rfl (by decide) rfl (by decide) rfl (by decide)).1,
    (getMergedEvents_local_wins timeW sysMerge cloudW "m1" elW ecW rfl (by decide)
      (by decide) rfl (by decide) rfl (by decide) rfl (by decide)).2⟩

end TicTrack
